import Mathlib

/-!
Verification of the RedFlag allocation-guardian engine (src/app.py).

The Python source is embedded shallowly: product identifiers are `String`
(manipulated through their character lists, mirroring Python string slicing),
numeric spreadsheet fields are `Int` after the pandas `to_numeric … fillna(0)`
coercion, tabular data is `List` of record structures, and the pandas
`groupby`/`merge` pipeline becomes explicit filter-and-sum over those lists.
-/

namespace RedFlag

/-! ## Reference normalizer (src/app.py, `get_base_product`) -/

/-- Embeds `if base_product.endswith('_R'): base_product = base_product[:-2]`:
drops a trailing `"_R"` revision marker, and is the identity otherwise. -/
def dropSuffixR (s : String) : String :=
  match s.toList.reverse with
  | 'R' :: '_' :: restRev => String.mk restRev.reverse
  | _ => s

/-- Embeds `prod_ref.endswith('_R')`. -/
def endsWithR (s : String) : Bool :=
  match s.toList.reverse with
  | 'R' :: '_' :: _ => true
  | _ => false

/-- Embeds `get_base_product` (src/app.py lines 192-207): strip one `_R`
revision suffix, then strip one trailing `_`-separated segment when that
segment is entirely numeric and has length 2 or 3 (`rsplit('_', 1)`). -/
def get_base_product (prod_ref : String) : String :=
  let base_product := dropSuffixR prod_ref
  let rev := base_product.toList.reverse
  let lastSeg := (rev.takeWhile (fun c => c != '_')).reverse
  match rev.dropWhile (fun c => c != '_') with
  | [] => base_product
  | _ :: beforeRev =>
    if lastSeg.all (fun c => c.isDigit) && (lastSeg.length == 2 || lastSeg.length == 3) then
      String.mk beforeRev.reverse
    else
      base_product

/-- Left-to-right non-overlapping removal of every `"_R"` occurrence,
the character-list rendering of Python `s.replace('_R', '')`. -/
def removeEveryUR : List Char → List Char
  | '_' :: 'R' :: rest => removeEveryUR rest
  | c :: rest => c :: removeEveryUR rest
  | [] => []

/-- Embeds `prod_ref.replace('_R', '')` (all occurrences, not only a suffix). -/
def replaceAllR (s : String) : String :=
  String.mk (removeEveryUR s.toList)

/-- Embeds Python `str.strip()`: drop whitespace from both ends. -/
def pyStrip (s : String) : String :=
  String.mk (((s.toList.dropWhile Char.isWhitespace).reverse.dropWhile
    Char.isWhitespace).reverse)

/-- Embeds `has_dimension = base_product != prod_ref.replace('_R', '')`
(src/app.py line 212). -/
def hasDimensionFlag (prod_ref : String) : Bool :=
  get_base_product prod_ref != replaceAllR prod_ref

/-! ## Group resolver (src/app.py, `get_product_group`).

`p2g` embeds the `product_to_group` dict (association list, first hit wins)
and `lg` embeds the key set of `linked_groups` (groups with > 1 member). -/

/-- Embeds `get_product_group` (src/app.py lines 209-239).  Python's early
returns become continuation `let`s: `step2`/`step3`/`step4` are the parts of
the function body following the first/second/third `return` site. -/
def get_product_group (p2g : List (String × Nat)) (lg : List Nat) (prod_ref : String) : String :=
  let base_product := get_base_product prod_ref
  let has_dimension := hasDimensionFlag prod_ref
  let step4 : String := if has_dimension then "Dim_" ++ base_product else prod_ref
  let step3 : String :=
    if base_product != prod_ref then
      match List.lookup base_product p2g with
      | some group => if lg.contains group then "Group_" ++ toString group else step4
      | none => step4
    else step4
  let step2 : String :=
    if endsWithR prod_ref then
      match List.lookup (dropSuffixR prod_ref) p2g with
      | some group => if lg.contains group then "Group_" ++ toString group else step3
      | none => step3
    else step3
  match List.lookup prod_ref p2g with
  | some group => if lg.contains group then "Group_" ++ toString group else step2
  | none => step2

/-! ## Spec-side resolver (spec.md section 4.3) — an ordered rule list,
first match wins, used to state claim C2. -/

/-- Modelled from the spec's rule vocabulary: an exact-identifier lookup that
succeeds only when the matched group is a retained linked group. -/
def ruleLinkedExact (p2g : List (String × Nat)) (lg : List Nat) (key : String) : Option String :=
  match List.lookup key p2g with
  | some group => if lg.contains group then some ("Group_" ++ toString group) else none
  | none => none

/-- Modelled from the spec: the resolver's rules 1-4, in priority order. -/
def resolveRules (p2g : List (String × Nat)) (lg : List Nat) (prod_ref : String) :
    List (Option String) :=
  [ ruleLinkedExact p2g lg prod_ref,
    if endsWithR prod_ref then ruleLinkedExact p2g lg (dropSuffixR prod_ref) else none,
    ruleLinkedExact p2g lg (get_base_product prod_ref),
    if hasDimensionFlag prod_ref then some ("Dim_" ++ get_base_product prod_ref) else none ]

/-- First rule that fires wins; the default (rule 5, `Self`) is the raw
identifier. -/
def firstHit : List (Option String) → String → String
  | [], dflt => dflt
  | some s :: _, _ => s
  | none :: rest, dflt => firstHit rest dflt

/-- Modelled from the spec (section 4.3): `resolveGroup` as a strict
priority cascade over `resolveRules`, falling back to the identifier itself. -/
def resolveGroupSpec (p2g : List (String × Nat)) (lg : List Nat) (prod_ref : String) : String :=
  firstHit (resolveRules p2g lg prod_ref) prod_ref

/-! ## Spreadsheet cells and row-level coercion (src/app.py lines 170-179) -/

/-- A raw spreadsheet cell as pandas sees it: missing (`NaN`), present but not
parseable as a number, or a numeric value. -/
inductive Cell where
  | missing
  | nonNumeric (s : String)
  | num (v : Int)
deriving DecidableEq, Repr

/-- Embeds `pd.to_numeric(col, errors='coerce').fillna(0)`: an unparseable or
missing cell becomes 0, a numeric cell keeps its value. -/
def coerceCell : Cell → Int
  | Cell.num v => v
  | _ => 0

/-- A raw row of the RO extract, after column selection but before numeric
cleaning (src/app.py lines 170-171). -/
structure RawRow where
  store_code : String
  prodName : String
  prodReference : String
  size : String
  store_stock : Cell
  quantity : Cell
  quantity_28 : Cell
  wh_stock : Cell
  agr_pct : Cell
deriving DecidableEq, Repr

/-- A cleaned working row (src/app.py lines 174-179): every measurement field
has been coerced to a number. -/
structure WorkingRow where
  store_code : String
  prodName : String
  prodReference : String
  size : String
  store_stock : Int
  quantity : Int
  quantity_28 : Int
  wh_stock : Int
  agr_pct : Int
deriving DecidableEq, Repr

/-- Embeds the five `pd.to_numeric(...).fillna(0)` column assignments: the row
is kept, its defective numeric fields are zeroed. -/
def cleanRow (r : RawRow) : WorkingRow :=
  { store_code := r.store_code
    prodName := r.prodName
    prodReference := r.prodReference
    size := r.size
    store_stock := coerceCell r.store_stock
    quantity := coerceCell r.quantity
    quantity_28 := coerceCell r.quantity_28
    wh_stock := coerceCell r.wh_stock
    agr_pct := coerceCell r.agr_pct }

/-- Embeds the cleaned `working_df`: every raw row survives cleaning. -/
def working_df (raws : List RawRow) : List WorkingRow :=
  raws.map cleanRow

/-! ## Linked-lines index build (src/app.py lines 100-143) -/

/-- One row of a linked-lines source: column A (product reference, `none` when
`pd.isna`) and column B (order indicator cell). -/
structure LinkedRow where
  product_ref : Option String
  order_in : Cell
deriving DecidableEq, Repr

/-- Embeds the `for idx, row in linked_df.iterrows()` loop: rows lacking a
product reference or order indicator, or whose order indicator fails
`float(...)`, are skipped; an order value of exactly 1 increments the running
group counter before assignment; every surviving row is recorded as
`(current_group, product_ref.strip())`. -/
def buildEntries : List LinkedRow → Nat → List (Nat × String)
  | [], _ => []
  | r :: rest, current_group =>
    match r.product_ref, r.order_in with
    | some p, Cell.num order_val =>
      let cg := if order_val = 1 then current_group + 1 else current_group
      (cg, pyStrip p) :: buildEntries rest cg
    | _, _ => buildEntries rest current_group

/-- Embeds `group_to_products[g]`: the references recorded under group `g`,
in source order. -/
def groupMembers (entries : List (Nat × String)) (g : Nat) : List String :=
  (entries.filter (fun e => e.1 == g)).map (fun e => e.2)

/-- Embeds membership in `linked_groups = {k: v for k, v in
group_to_products.items() if len(v) > 1}`. -/
def retainedGroup (entries : List (Nat × String)) (g : Nat) : Bool :=
  (groupMembers entries g).length > 1

/-- The group ids opened by an order-indicator-1 marker row during the build:
each marker row contributes the counter value it creates. -/
def markerGroups : List LinkedRow → Nat → List Nat
  | [], _ => []
  | r :: rest, current_group =>
    match r.product_ref, r.order_in with
    | some _, Cell.num order_val =>
      if order_val = 1 then (current_group + 1) :: markerGroups rest (current_group + 1)
      else markerGroups rest current_group
    | _, _ => markerGroups rest current_group

/-! ## Store/group aggregation and the misallocation flag
(src/app.py lines 261-284) -/

/-- The grouping predicate of `working_df.groupby(['Store_Code',
'Product_Group'])`: a row belongs to the (store, group) key. -/
def sameStoreGroup (p2g : List (String × Nat)) (lg : List Nat) (store grp : String)
    (r : WorkingRow) : Bool :=
  r.store_code == store && get_product_group p2g lg r.prodReference == grp

/-- Embeds `Total_Store_Stock`: the `Store_Stock` sum over all working rows
sharing the (store, group) key. -/
def Total_Store_Stock (p2g : List (String × Nat)) (lg : List Nat) (rows : List WorkingRow)
    (store grp : String) : Int :=
  ((rows.filter (sameStoreGroup p2g lg store grp)).map (fun r => r.store_stock)).sum

/-- Embeds `Total_Sales_28`: the `Quantity_28` sum over all working rows
sharing the (store, group) key. -/
def Total_Sales_28 (p2g : List (String × Nat)) (lg : List Nat) (rows : List WorkingRow)
    (store grp : String) : Int :=
  ((rows.filter (sameStoreGroup p2g lg store grp)).map (fun r => r.quantity_28)).sum

/-- Embeds `Combined_Metric = Total_Store_Stock + Total_Sales_28`
(src/app.py line 275). -/
def Combined_Metric (p2g : List (String × Nat)) (lg : List Nat) (rows : List WorkingRow)
    (store grp : String) : Int :=
  Total_Store_Stock p2g lg rows store grp + Total_Sales_28 p2g lg rows store grp

/-- Embeds `Is_Misallocation = Combined_Metric < THRESHOLD` for the row's own
(store, group) key (src/app.py line 276). -/
def Is_Misallocation (p2g : List (String × Nat)) (lg : List Nat) (rows : List WorkingRow)
    (threshold : Int) (r : WorkingRow) : Bool :=
  decide (Combined_Metric p2g lg rows r.store_code
    (get_product_group p2g lg r.prodReference) < threshold)

/-- Embeds `allocations = working_df[working_df['Quantity'] > 0]`
(src/app.py line 261). -/
def allocations (rows : List WorkingRow) : List WorkingRow :=
  rows.filter (fun r => decide (0 < r.quantity))

/-- Embeds `misallocations = allocations[allocations['Is_Misallocation']]`
(src/app.py line 284): the flagged lines. -/
def misallocations (p2g : List (String × Nat)) (lg : List Nat) (rows : List WorkingRow)
    (threshold : Int) : List WorkingRow :=
  (allocations rows).filter (Is_Misallocation p2g lg rows threshold)

/-! ## Warehouse aggregation and the all-out flag (src/app.py lines 244-337) -/

/-- Embeds `working_df['SKU'] = ProdReference + '_' + Size` (line 245). -/
def SKU_str (r : WorkingRow) : String :=
  r.prodReference ++ "_" ++ r.size

/-- Loop of `drop_duplicates(subset=['SKU'])`: keep a row only when its SKU
string has not been seen yet. -/
def unique_skus_aux : List String → List WorkingRow → List WorkingRow
  | _, [] => []
  | seen, r :: rest =>
    if seen.contains (SKU_str r) then unique_skus_aux seen rest
    else r :: unique_skus_aux (SKU_str r :: seen) rest

/-- Embeds `unique_skus = working_df[...].drop_duplicates(subset=['SKU'])`
(line 313): first occurrence of each SKU string wins. -/
def unique_skus (rows : List WorkingRow) : List WorkingRow :=
  unique_skus_aux [] rows

/-- The grouping predicate of `groupby('Product_Group')`. -/
def sameGroup (p2g : List (String × Nat)) (lg : List Nat) (grp : String) (r : WorkingRow) :
    Bool :=
  get_product_group p2g lg r.prodReference == grp

/-- Embeds `Warehouse_Remaining`: `Wh_Stock` summed over the deduplicated SKU
rows of the group (lines 316-319). -/
def Warehouse_Remaining (p2g : List (String × Nat)) (lg : List Nat) (rows : List WorkingRow)
    (grp : String) : Int :=
  (((unique_skus rows).filter (sameGroup p2g lg grp)).map (fun r => r.wh_stock)).sum

/-- Embeds `Total_Allocated`: `Quantity` summed over all working rows of the
group, with no deduplication (lines 322-325). -/
def Total_Allocated (p2g : List (String × Nat)) (lg : List Nat) (rows : List WorkingRow)
    (grp : String) : Int :=
  ((rows.filter (sameGroup p2g lg grp)).map (fun r => r.quantity)).sum

/-- Embeds `Should_AllOut = (Warehouse_Remaining > 0) & (Warehouse_Remaining <
active_threshold)` (lines 332-335). -/
def Should_AllOut (p2g : List (String × Nat)) (lg : List Nat) (rows : List WorkingRow)
    (grp : String) (active_threshold : Int) : Bool :=
  decide (Warehouse_Remaining p2g lg rows grp > 0) &&
    decide (Warehouse_Remaining p2g lg rows grp < active_threshold)

/-! ## Warehouse-source detection (src/app.py lines 293-310) -/

/-- Embeds `CDA_STORES = ['883', '3978', '3997']`. -/
def CDA_STORES : List String := ["883", "3978", "3997"]

/-- Embeds `USA_STORES = ['886', '3210', '3108', '3113']`. -/
def USA_STORES : List String := ["886", "3210", "3108", "3113"]

/-- Embeds the warehouse-type decision (lines 296-310): returns the label and
the selected depletion threshold. -/
def warehouse_type (stores_in_file : List String)
    (usa_allout_threshold cda_allout_threshold : Int) : String × Int :=
  let is_cda := stores_in_file.any (fun store => CDA_STORES.contains store)
  let is_usa := stores_in_file.any (fun store => USA_STORES.contains store)
  if is_cda && !is_usa then ("CDA", cda_allout_threshold)
  else if is_usa && !is_cda then ("USA", usa_allout_threshold)
  else ("USA (default)", usa_allout_threshold)

/-! ## Theorems -/

/-- Claim C3 (code bug evidence): for the identifier `"AB_RED_4"` — whose
trailing numeric segment has length 1 and which contains `"_R"` only in a
non-suffix position — `get_base_product` strips nothing, yet the code's
`has_dimension` test (`base_product != prod_ref.replace('_R', '')`) fires
because `replace` removes the interior `"_R"`, so the resolver assigns the
Dimension key `"Dim_AB_RED_4"` instead of the identifier itself. -/
theorem nonsuffix_R_dimension_divergence :
    get_base_product "AB_RED_4" = "AB_RED_4"
  ∧ replaceAllR "AB_RED_4" = "ABED_4"
  ∧ hasDimensionFlag "AB_RED_4" = true
  ∧ get_product_group [] [] "AB_RED_4" = "Dim_AB_RED_4"
  ∧ get_product_group [] [] "AB_RED_4" ≠ "AB_RED_4" := by
  decide

/-- Claim C5: a group is an all-out candidate iff its deduplicated warehouse
remainder is strictly between 0 and the active depletion threshold; a zero
remainder is never flagged and a remainder equal to the threshold is not
flagged. -/
theorem allout_flag_iff (p2g : List (String × Nat)) (lg : List Nat) (rows : List WorkingRow)
    (thr : Int) (grp : String) :
    (Should_AllOut p2g lg rows grp thr = true ↔
      0 < Warehouse_Remaining p2g lg rows grp ∧ Warehouse_Remaining p2g lg rows grp < thr)
  ∧ (Warehouse_Remaining p2g lg rows grp = 0 → Should_AllOut p2g lg rows grp thr = false)
  ∧ (Warehouse_Remaining p2g lg rows grp = thr → Should_AllOut p2g lg rows grp thr = false) := by
  refine ⟨by simp [Should_AllOut], ?_, ?_⟩
  · intro h
    simp [Should_AllOut, h]
  · intro h
    simp [Should_AllOut, h]

/-- Witness for C5: on an empty run the remainder of any group is 0 and the
group is not flagged; a singleton group whose remainder equals the threshold 7
is not flagged either. -/
def rAll : WorkingRow := ⟨"1", "", "B", "M", 0, 0, 0, 7, 0⟩

theorem allout_flag_iff_check :
    Should_AllOut [] [] [] "G" 7 = false ∧ Should_AllOut [] [] [rAll] "B" 7 = false :=
  ⟨(allout_flag_iff [] [] [] 7 "G").2.1 rfl, (allout_flag_iff [] [] [rAll] 7 "B").2.2 rfl⟩

/-- Claim C6: warehouse-source detection from the run's store codes — CDA when
a CDA-allowlist store is present and no USA-allowlist store is, USA in the
symmetric case, and the explicit `"USA (default)"` annotation with the USA
threshold when both or neither allowlist matches. -/
theorem warehouse_type_classification (stores : List String) (u c : Int) :
    ((∃ s ∈ stores, s ∈ CDA_STORES) → (∀ s ∈ stores, s ∉ USA_STORES) →
      warehouse_type stores u c = ("CDA", c))
  ∧ ((∃ s ∈ stores, s ∈ USA_STORES) → (∀ s ∈ stores, s ∉ CDA_STORES) →
      warehouse_type stores u c = ("USA", u))
  ∧ ((((∃ s ∈ stores, s ∈ CDA_STORES) ∧ (∃ s ∈ stores, s ∈ USA_STORES)) ∨
      ((∀ s ∈ stores, s ∉ CDA_STORES) ∧ (∀ s ∈ stores, s ∉ USA_STORES))) →
      warehouse_type stores u c = ("USA (default)", u)) := by
  have hc : (stores.any fun store => CDA_STORES.contains store) = true ↔
      ∃ s ∈ stores, s ∈ CDA_STORES := by
    simp [List.any_eq_true, List.contains, List.elem_iff]
  have hu : (stores.any fun store => USA_STORES.contains store) = true ↔
      ∃ s ∈ stores, s ∈ USA_STORES := by
    simp [List.any_eq_true, List.contains, List.elem_iff]
  refine ⟨?_, ?_, ?_⟩
  · intro h1 h2
    have hcda := hc.mpr h1
    have husa : (stores.any fun store => USA_STORES.contains store) = false := by
      apply Bool.eq_false_iff.mpr
      intro ht
      rcases hu.mp ht with ⟨s, hs, hmem⟩
      exact h2 s hs hmem
    simp only [warehouse_type]
    rw [hcda, husa]
    rfl
  · intro h1 h2
    have husa := hu.mpr h1
    have hcda : (stores.any fun store => CDA_STORES.contains store) = false := by
      apply Bool.eq_false_iff.mpr
      intro ht
      rcases hc.mp ht with ⟨s, hs, hmem⟩
      exact h2 s hs hmem
    simp only [warehouse_type]
    rw [hcda, husa]
    rfl
  · intro h
    have hcases : (stores.any fun store => CDA_STORES.contains store) =
        (stores.any fun store => USA_STORES.contains store) := by
      rcases h with ⟨h1, h2⟩ | ⟨h1, h2⟩
      · rw [hc.mpr h1, hu.mpr h2]
      · have hcda : (stores.any fun store => CDA_STORES.contains store) = false := by
          apply Bool.eq_false_iff.mpr
          intro ht
          rcases hc.mp ht with ⟨s, hs, hmem⟩
          exact h1 s hs hmem
        have husa : (stores.any fun store => USA_STORES.contains store) = false := by
          apply Bool.eq_false_iff.mpr
          intro ht
          rcases hu.mp ht with ⟨s, hs, hmem⟩
          exact h2 s hs hmem
        rw [hcda, husa]
    simp only [warehouse_type]
    rw [hcases]
    cases stores.any fun store => USA_STORES.contains store <;> rfl

/-- Witness for C6 (Scenario D): store set `{"883","3978"}` resolves to CDA
with the CDA threshold, and a store set matching neither allowlist defaults to
`"USA (default)"` with the USA threshold. -/
theorem warehouse_type_classification_check :
    warehouse_type ["883", "3978"] 40 30 = ("CDA", 30) ∧
    warehouse_type ["100"] 40 30 = ("USA (default)", 40) :=
  ⟨(warehouse_type_classification ["883", "3978"] 40 30).1 ⟨"883", by simp, by decide⟩
      (by decide),
    (warehouse_type_classification ["100"] 40 30).2.2 (Or.inr ⟨by decide, by decide⟩)⟩

/-- Claim C9: cleaning the RO extract coerces a missing or non-numeric
measurement cell (on-hand stock, ship quantity, trailing sales, warehouse
remainder, Agr percent) to 0, keeps every row, and is total — no row-level
defect aborts the run. -/
theorem row_defect_coercion (raws : List RawRow) (r : RawRow) (hr : r ∈ raws) :
    cleanRow r ∈ working_df raws
  ∧ (working_df raws).length = raws.length
  ∧ coerceCell Cell.missing = 0
  ∧ (∀ s, coerceCell (Cell.nonNumeric s) = 0)
  ∧ (cleanRow r).store_stock = coerceCell r.store_stock
  ∧ (cleanRow r).quantity = coerceCell r.quantity
  ∧ (cleanRow r).quantity_28 = coerceCell r.quantity_28
  ∧ (cleanRow r).wh_stock = coerceCell r.wh_stock
  ∧ (cleanRow r).agr_pct = coerceCell r.agr_pct :=
  ⟨List.mem_map_of_mem cleanRow hr, by simp [working_df], rfl, fun _ => rfl,
    rfl, rfl, rfl, rfl, rfl⟩

/-- Witness for C9: a concrete row whose stock cell is the text `"n/a"` and
whose quantity cell is missing is retained with both fields coerced to 0. -/
def rawD : RawRow := ⟨"100", "", "P", "M", Cell.nonNumeric "n/a", Cell.missing,
  Cell.num 3, Cell.nonNumeric "", Cell.missing⟩

theorem row_defect_coercion_check :
    cleanRow rawD ∈ working_df [rawD] ∧ (cleanRow rawD).store_stock = coerceCell rawD.store_stock :=
  ⟨(row_defect_coercion [rawD] rawD (by simp)).1,
    (row_defect_coercion [rawD] rawD (by simp)).2.2.2.2.1⟩

/-- Splitting a mapped sum along a Boolean predicate: the rows satisfying the
predicate and the rows refuting it together contribute the whole sum. -/
theorem sum_map_filter_split {α : Type} (p : α → Bool) (f : α → Int) (l : List α) :
    (l.map f).sum =
      ((l.filter p).map f).sum + ((l.filter fun a => !(p a)).map f).sum := by
  induction l with
  | nil => simp
  | cons a l ih =>
    cases hpa : p a <;> simp [List.filter_cons, hpa, ih] <;> ring

/-- Claim C1: an allocation line is flagged as a misallocation iff its ship
quantity is positive and the combined (stock + trailing-sales) aggregate of
its (store, group) key is strictly below the threshold; a line whose combined
metric equals the threshold is not flagged, and a zero-ship-quantity line is
never flagged. -/
theorem misallocation_flag_iff (p2g : List (String × Nat)) (lg : List Nat)
    (rows : List WorkingRow) (thr : Int) (r : WorkingRow) (hr : r ∈ rows) :
    (r ∈ misallocations p2g lg rows thr ↔
      0 < r.quantity ∧ Combined_Metric p2g lg rows r.store_code
        (get_product_group p2g lg r.prodReference) < thr)
  ∧ (Combined_Metric p2g lg rows r.store_code (get_product_group p2g lg r.prodReference) = thr →
      r ∉ misallocations p2g lg rows thr)
  ∧ (r.quantity = 0 → r ∉ misallocations p2g lg rows thr) := by
  have hmem : r ∈ misallocations p2g lg rows thr ↔
      0 < r.quantity ∧ Combined_Metric p2g lg rows r.store_code
        (get_product_group p2g lg r.prodReference) < thr := by
    simp only [misallocations, allocations, Is_Misallocation, List.mem_filter,
      decide_eq_true_eq]
    constructor
    · rintro ⟨⟨_, hq⟩, hcm⟩
      exact ⟨hq, hcm⟩
    · rintro ⟨hq, hcm⟩
      exact ⟨⟨hr, hq⟩, hcm⟩
  refine ⟨hmem, ?_, ?_⟩
  · intro he hin
    have := (hmem.mp hin).2
    rw [he] at this
    exact lt_irrefl _ this
  · intro h0 hin
    have := (hmem.mp hin).1
    rw [h0] at this
    exact lt_irrefl _ this

/-- Scenario B rows: store `"100"` carries the `Dim_ABC123` family in two
size variants, with stock 1 and 2 and trailing sales 0 and 1; only the first
line ships units. -/
def rB1 : WorkingRow := ⟨"100", "", "ABC123_30", "30", 1, 2, 0, 0, 0⟩

def rB2 : WorkingRow := ⟨"100", "", "ABC123_32", "32", 2, 0, 1, 0, 0⟩

/-- Witness for C1 (Scenario B): combined metric 4 — flagged at threshold 5,
not flagged at threshold 4, and the zero-quantity line is never flagged. -/
theorem misallocation_flag_iff_check :
    rB1 ∈ misallocations [] [] [rB1, rB2] 5
  ∧ rB1 ∉ misallocations [] [] [rB1, rB2] 4
  ∧ rB2 ∉ misallocations [] [] [rB1, rB2] 5 :=
  ⟨(misallocation_flag_iff [] [] [rB1, rB2] 5 rB1 (by decide)).1.mpr ⟨by decide, by decide⟩,
    (misallocation_flag_iff [] [] [rB1, rB2] 4 rB1 (by decide)).2.1 (by decide),
    (misallocation_flag_iff [] [] [rB1, rB2] 5 rB2 (by decide)).2.2 (by decide)⟩

/-- Claim C7: the combined metric of a (store, group) key is the stock sum
plus the sales sum over ALL working rows sharing the key, and it splits into
the contributions of the positive-ship-quantity rows and of the
zero-or-negative-ship-quantity rows — zero-ship lines are included. -/
theorem combined_metric_all_lines (p2g : List (String × Nat)) (lg : List Nat)
    (rows : List WorkingRow) (store grp : String) :
    Combined_Metric p2g lg rows store grp =
      ((rows.filter (sameStoreGroup p2g lg store grp)).map (fun r => r.store_stock)).sum
      + ((rows.filter (sameStoreGroup p2g lg store grp)).map (fun r => r.quantity_28)).sum
  ∧ Combined_Metric p2g lg rows store grp =
      ((((rows.filter (sameStoreGroup p2g lg store grp)).filter
          (fun r => decide (0 < r.quantity))).map (fun r => r.store_stock)).sum
        + (((rows.filter (sameStoreGroup p2g lg store grp)).filter
          (fun r => decide (0 < r.quantity))).map (fun r => r.quantity_28)).sum)
      + ((((rows.filter (sameStoreGroup p2g lg store grp)).filter
          (fun r => !(decide (0 < r.quantity)))).map (fun r => r.store_stock)).sum
        + (((rows.filter (sameStoreGroup p2g lg store grp)).filter
          (fun r => !(decide (0 < r.quantity)))).map (fun r => r.quantity_28)).sum) := by
  constructor
  · rfl
  · have h1 := sum_map_filter_split (fun r => decide (0 < r.quantity))
      (fun r : WorkingRow => r.store_stock) (rows.filter (sameStoreGroup p2g lg store grp))
    have h2 := sum_map_filter_split (fun r => decide (0 < r.quantity))
      (fun r : WorkingRow => r.quantity_28) (rows.filter (sameStoreGroup p2g lg store grp))
    unfold Combined_Metric Total_Store_Stock Total_Sales_28
    rw [h1, h2]
    ring

/-- Counterexample to C8 as stated: two rows with valid identifiers and
numeric order indicators 2 and 3, arriving BEFORE any order-indicator-1
marker, are not skipped — they are both assigned to group 0 (no marker ever
opened group 0) and, having two members, group 0 is retained as a linked
group; moreover with the counter carried forward at 1 from a previously
merged source, a pre-marker row joins that source's group 1. -/
def premarkerRows : List LinkedRow := [⟨some "P1", Cell.num 2⟩, ⟨some "P2", Cell.num 3⟩]

theorem premarker_rows_grouped_counterexample :
    buildEntries premarkerRows 0 = [(0, "P1"), (0, "P2")]
  ∧ retainedGroup (buildEntries premarkerRows 0) 0 = true
  ∧ markerGroups premarkerRows 0 = []
  ∧ buildEntries [⟨some "P3", Cell.num 2⟩] 1 = [(1, "P3")] := by
  decide

/-- Claim C8 (amended): every identifier recorded by the index build belongs
either to the group id the counter started at (pre-marker rows are grouped
there, not skipped) or to a group id opened by a row whose order indicator
equals exactly 1; rows with a missing identifier, a missing order indicator,
or a non-numeric order indicator are skipped and contribute no entry. -/
theorem build_entries_group_origin (rows : List LinkedRow) (current : Nat) :
    (∀ e ∈ buildEntries rows current, e.1 = current ∨ e.1 ∈ markerGroups rows current)
  ∧ (∀ c rest, buildEntries (⟨none, c⟩ :: rest) current = buildEntries rest current)
  ∧ (∀ p rest, buildEntries (⟨some p, Cell.missing⟩ :: rest) current = buildEntries rest current)
  ∧ (∀ p s rest,
      buildEntries (⟨some p, Cell.nonNumeric s⟩ :: rest) current = buildEntries rest current) := by
  refine ⟨?_, fun c rest => rfl, fun p rest => rfl, fun p s rest => rfl⟩
  induction rows generalizing current with
  | nil =>
    intro e he
    simp [buildEntries] at he
  | cons r rest ih =>
    intro e he
    obtain ⟨pr, oi⟩ := r
    cases pr with
    | none =>
      exact ih current e he
    | some p =>
      cases oi with
      | missing =>
        exact ih current e he
      | nonNumeric s =>
        exact ih current e he
      | num v =>
        by_cases hv : v = 1
        · subst hv
          simp only [buildEntries, markerGroups, List.mem_cons, if_true,
            reduceIte] at he ⊢
          rcases he with he | he
          · right
            left
            rw [he]
          · rcases ih (current + 1) e he with h | h
            · right
              left
              exact h
            · right
              right
              exact h
        · simp only [buildEntries, markerGroups, if_neg hv, List.mem_cons] at he ⊢
          rcases he with he | he
          · left
            rw [he]
          · exact ih current e he

/-- Witness for C8 (amended): in a source whose first row is an
order-indicator-1 marker, the recorded entry `(1, "P1")` has a group id opened
by that marker. -/
def markerRows : List LinkedRow := [⟨some "P1", Cell.num 1⟩, ⟨some "P2", Cell.num 2⟩]

theorem build_entries_group_origin_check :
    ((1 : Nat), "P1") ∈ buildEntries markerRows 0
  ∧ (((1 : Nat), "P1").1 = 0 ∨ ((1 : Nat), "P1").1 ∈ markerGroups markerRows 0) :=
  ⟨by decide, (build_entries_group_origin markerRows 0).1 (1, "P1") (by decide)⟩

/-! ### SKU deduplication lemmas (for claim C4) -/

/-- Unfolds `List.contains` to propositional membership, negative form. -/
theorem contains_eq_false_iff (l : List String) (a : String) :
    l.contains a = false ↔ a ∉ l := by
  simp [List.contains]

/-- The dedup loop output is a sublist of its input. -/
theorem unique_skus_aux_sublist (rows : List WorkingRow) :
    ∀ seen, (unique_skus_aux seen rows).Sublist rows := by
  induction rows with
  | nil => intro seen; simp [unique_skus_aux]
  | cons r rest ih =>
    intro seen
    simp only [unique_skus_aux]
    cases h : seen.contains (SKU_str r)
    · simp only [Bool.false_eq_true, if_false]
      exact (ih (SKU_str r :: seen)).cons₂ r
    · simp only [if_true]
      exact (ih seen).cons r

/-- No kept row has a SKU string that was already in the seen accumulator. -/
theorem unique_skus_aux_not_seen (rows : List WorkingRow) :
    ∀ seen, ∀ r ∈ unique_skus_aux seen rows, SKU_str r ∉ seen := by
  induction rows with
  | nil => intro seen r hr; simp [unique_skus_aux] at hr
  | cons a rest ih =>
    intro seen r hr
    simp only [unique_skus_aux] at hr
    cases h : seen.contains (SKU_str a)
    · rw [h] at hr
      simp only [Bool.false_eq_true, if_false, List.mem_cons] at hr
      rcases hr with hr | hr
      · subst hr
        exact (contains_eq_false_iff seen (SKU_str r)).mp h
      · have := ih (SKU_str a :: seen) r hr
        intro hmem
        exact this (List.mem_cons_of_mem _ hmem)
    · rw [h] at hr
      simp only [if_true] at hr
      exact ih seen r hr

/-- The kept rows have pairwise distinct SKU strings. -/
theorem unique_skus_aux_nodup (rows : List WorkingRow) :
    ∀ seen, ((unique_skus_aux seen rows).map SKU_str).Nodup := by
  induction rows with
  | nil => intro seen; simp [unique_skus_aux]
  | cons a rest ih =>
    intro seen
    simp only [unique_skus_aux]
    cases h : seen.contains (SKU_str a)
    · simp only [Bool.false_eq_true, if_false, List.map_cons, List.nodup_cons]
      refine ⟨?_, ih (SKU_str a :: seen)⟩
      intro hmem
      rcases List.mem_map.mp hmem with ⟨r, hr, hsku⟩
      have := unique_skus_aux_not_seen rest (SKU_str a :: seen) r hr
      exact this (by rw [hsku]; exact List.mem_cons_self _ _)
    · simp only [if_true]
      exact ih seen

/-- For a SKU string not yet seen, the first kept row with that SKU is the
first input row with that SKU: deduplication keeps first occurrences. -/
theorem unique_skus_aux_find (rows : List WorkingRow) :
    ∀ seen s, s ∉ seen →
      (unique_skus_aux seen rows).find? (fun r => SKU_str r == s) =
        rows.find? (fun r => SKU_str r == s) := by
  induction rows with
  | nil => intro seen s _; rfl
  | cons a rest ih =>
    intro seen s hs
    simp only [unique_skus_aux]
    cases h : seen.contains (SKU_str a)
    · simp only [Bool.false_eq_true, if_false]
      cases hpa : (SKU_str a == s)
      · rw [List.find?_cons, List.find?_cons, hpa]
        apply ih (SKU_str a :: seen) s
        intro hmem
        rcases List.mem_cons.mp hmem with hmem | hmem
        · rw [hmem] at hpa
          simp at hpa
        · exact hs hmem
      · rw [List.find?_cons, List.find?_cons, hpa]
    · cases hpa : (SKU_str a == s)
      · rw [List.find?_cons, hpa]
        exact ih seen s hs
      · exfalso
        have : SKU_str a = s := by
          have := hpa
          simpa using this
        rw [this] at h
        exact hs (List.elem_iff.mp h)

/-- Counterexample to C4 as stated: the dedup key is the concatenated string
`ProdReference + '_' + Size`, which is not injective in the (identifier, size)
pair.  The rows `("A_30", "5")` and `("A", "30_5")` are distinct pairs in the
same linked group, yet share the SKU string `"A_30_5"`, so only the first
contributes its warehouse remainder: the group aggregate is 5, not 5 + 7. -/
def rK1 : WorkingRow := ⟨"1", "", "A_30", "5", 0, 0, 0, 5, 0⟩

def rK2 : WorkingRow := ⟨"1", "", "A", "30_5", 0, 0, 0, 7, 0⟩

theorem sku_collision_counterexample :
    (rK1.prodReference, rK1.size) ≠ (rK2.prodReference, rK2.size)
  ∧ SKU_str rK1 = SKU_str rK2
  ∧ get_product_group [("A_30", 1), ("A", 1)] [1] rK1.prodReference = "Group_1"
  ∧ get_product_group [("A_30", 1), ("A", 1)] [1] rK2.prodReference = "Group_1"
  ∧ Warehouse_Remaining [("A_30", 1), ("A", 1)] [1] [rK1, rK2] "Group_1" = 5
  ∧ Warehouse_Remaining [("A_30", 1), ("A", 1)] [1] [rK1, rK2] "Group_1" ≠
      rK1.wh_stock + rK2.wh_stock := by
  decide

/-- Claim C4 (amended): per-group warehouse remainder is summed over rows
deduplicated by the SKU STRING `identifier + '_' + size` (not by the
(identifier, size) pair): the kept rows are a sublist of the input with
pairwise-distinct SKU strings, the kept representative of any SKU string is
the FIRST input row bearing it, the group remainder is the `Wh_Stock` sum of
the kept rows of the group, and allocated quantity is summed over all rows of
the group with no deduplication. -/
theorem warehouse_dedup_by_sku_string (p2g : List (String × Nat)) (lg : List Nat)
    (rows : List WorkingRow) (grp : String) :
    (unique_skus rows).Sublist rows
  ∧ ((unique_skus rows).map SKU_str).Nodup
  ∧ (∀ s, (unique_skus rows).find? (fun r => SKU_str r == s) =
      rows.find? (fun r => SKU_str r == s))
  ∧ Warehouse_Remaining p2g lg rows grp =
      (((unique_skus rows).filter (sameGroup p2g lg grp)).map (fun r => r.wh_stock)).sum
  ∧ Total_Allocated p2g lg rows grp =
      ((rows.filter (sameGroup p2g lg grp)).map (fun r => r.quantity)).sum :=
  ⟨unique_skus_aux_sublist rows [],
    unique_skus_aux_nodup rows [],
    fun s => unique_skus_aux_find rows [] s (List.not_mem_nil s),
    rfl, rfl⟩

/-! ### Cascade lemmas (for claim C2) -/

/-- The code's `if prod_ref in product_to_group: … return` block is the
`getD`-composition of `ruleLinkedExact` with the continuation. -/
theorem ruleLinkedExact_getD (p2g : List (String × Nat)) (lg : List Nat) (k step : String) :
    (match List.lookup k p2g with
      | some group => if lg.contains group then "Group_" ++ toString group else step
      | none => step) = (ruleLinkedExact p2g lg k).getD step := by
  unfold ruleLinkedExact
  cases List.lookup k p2g with
  | none => rfl
  | some g =>
    show (if lg.contains g then "Group_" ++ toString g else step) =
      (if lg.contains g then some ("Group_" ++ toString g) else none).getD step
    cases lg.contains g <;> rfl

/-- A guarded rule distributes over `getD`. -/
theorem if_rule_getD (E : Bool) (o : Option String) (step : String) :
    (if E then o.getD step else step) = (if E then o else none).getD step := by
  cases E <;> rfl

/-- A guarded always-some rule collapses to a plain conditional. -/
theorem if_some_getD (E : Bool) (s d : String) :
    ((if E then some s else none).getD d) = if E then s else d := by
  cases E <;> rfl

/-- Folding `firstHit` over the four rules is the `getD`-composition of the
rules. -/
theorem firstHit_eq_getD (o1 o2 o3 o4 : Option String) (d : String) :
    firstHit [o1, o2, o3, o4] d = o1.getD (o2.getD (o3.getD (o4.getD d))) := by
  cases o1 <;> cases o2 <;> cases o3 <;> cases o4 <;> rfl

/-- The embedded resolver coincides with the spec's ordered-rule cascade. -/
theorem get_product_group_eq_spec_cascade (p2g : List (String × Nat)) (lg : List Nat)
    (prod_ref : String) :
    get_product_group p2g lg prod_ref = resolveGroupSpec p2g lg prod_ref := by
  simp only [get_product_group, resolveGroupSpec, resolveRules, ruleLinkedExact_getD,
    if_rule_getD, firstHit_eq_getD, if_some_getD]
  by_cases hb : get_base_product prod_ref = prod_ref
  · simp only [hb, bne_self_eq_false, Bool.false_eq_true, if_false]
    cases hr1 : ruleLinkedExact p2g lg prod_ref <;> simp [hr1]
  · simp [bne_iff_ne.mpr hb]

/-- Claim C2: the resolver evaluates its rules in strict priority order with
first match winning — exact retained-group match, then `_R`-stripped exact
match, then normalized-base exact match, then dimension grouping, then the
identifier itself — and when no retained-group match exists (in particular
when every index match hits a singleton group) the result is never a Linked
key but the rule-4/rule-5 fallback. -/
theorem resolve_group_priority_order (p2g : List (String × Nat)) (lg : List Nat)
    (prod_ref : String) :
    get_product_group p2g lg prod_ref = resolveGroupSpec p2g lg prod_ref
  ∧ (ruleLinkedExact p2g lg prod_ref = none →
      (if endsWithR prod_ref then ruleLinkedExact p2g lg (dropSuffixR prod_ref) else none) =
        none →
      ruleLinkedExact p2g lg (get_base_product prod_ref) = none →
      get_product_group p2g lg prod_ref =
        if hasDimensionFlag prod_ref then "Dim_" ++ get_base_product prod_ref else prod_ref) := by
  refine ⟨get_product_group_eq_spec_cascade p2g lg prod_ref, ?_⟩
  intro h1 h2 h3
  rw [get_product_group_eq_spec_cascade p2g lg prod_ref]
  unfold resolveGroupSpec resolveRules
  rw [firstHit_eq_getD, h1, h2, h3]
  simp only [Option.getD_none, if_some_getD]

/-- Witness for C2: with an index holding only the singleton group
`{"P1" ↦ 1}` and no retained groups, every rule misses and `"P1"` resolves
through the fallback — a singleton match never yields a Linked key. -/
theorem resolve_group_priority_order_check :
    get_product_group [("P1", 1)] [] "P1" =
      (if hasDimensionFlag "P1" then "Dim_" ++ get_base_product "P1" else "P1") :=
  (resolve_group_priority_order [("P1", 1)] [] "P1").2 rfl rfl rfl

/-- Claim C10: base-identifier normalization strips at most one trailing
dimension segment, so it is not idempotent — `"A_30_32"` normalizes to
`"A_30"` (which itself still ends in a dimension segment) and is grouped as
`Dim_A_30`, while its sibling `"A_32"` is grouped as `Dim_A`: stacked-dimension
variants land in different Dimension families. -/
theorem stacked_dimension_not_idempotent :
    get_base_product "A_30_32" = "A_30"
  ∧ get_base_product "A_30" = "A"
  ∧ get_base_product (get_base_product "A_30_32") ≠ get_base_product "A_30_32"
  ∧ get_product_group [] [] "A_30_32" = "Dim_A_30"
  ∧ get_product_group [] [] "A_32" = "Dim_A"
  ∧ get_product_group [] [] "A_30_32" ≠ get_product_group [] [] "A_32" := by
  decide

end RedFlag
